import Mathlib

/-!
Verification of the security-scan handling logic of the AWS Toolkit for
VS Code (`packages/core/src/codewhisperer/service/securityScanHandler.ts`
and `src/weaverbird/errors.ts`), via a shallow embedding in Lean.

External collaborators (the CodeWhisperer client, the filesystem, the
`path` module, the HTTP request helper, the shared cancellation flag)
are modelled as explicit environment parameters; the control flow and
data transformations of the handler functions themselves are translated
line by line from the TypeScript source.
-/

namespace SecurityScan

/-! ## Scan status poller (`pollScanJobStatus`)

The TypeScript loop is:

```
let status = 'Pending'; let timer = 0
while (true) {
  throwIfCancelled()                       -- checkpoint 2*i
  const resp = await client.getCodeScan(req)
  if (resp.status !== 'Pending') { status = resp.status; break }
  throwIfCancelled()                       -- checkpoint 2*i + 1
  await sleep(interval * 1000)
  timer += interval
  if (timer > timeout) throw Error('Scan job timeout.')
}
return status
```

The cancellation flag (`codeScanState.isCancelling()`) is sampled only at
the `throwIfCancelled` call sites; we model it as a function from the
index of the checkpoint reached (0, 1, 2, … in program order) to `Bool`.
The service responses are modelled as the list of status strings returned
by successive `getCodeScan` calls.  The polling interval and timeout are
module constants (`codeScanJobPollingIntervalSeconds`,
`codeScanJobTimeoutSeconds` from the constants module, which only this
file's import names); they are passed as parameters `interval` and `T`.
The second component of the result counts the `sleep` calls performed.
-/

/-- Outcome of one run of the poll loop: a normal return of the first
non-Pending status, the `CodeScanStoppedError` thrown by
`throwIfCancelled`, the `'Scan job timeout.'` error, or exhaustion of the
modelled response list. -/
inductive PollResult where
  | ok (status : String)
  | scanStopped
  | jobTimeout
  | noResponse
deriving DecidableEq, Repr

/-- The poll loop of `pollScanJobStatus`, one recursive step per
iteration.  `cp` is the index of the next cancellation checkpoint,
`timer` the accumulated seconds, `sleeps` the number of sleeps so far. -/
def pollLoop (cancel : Nat → Bool) (interval T : Nat) :
    List String → Nat → Nat → Nat → PollResult × Nat
  | statuses, cp, timer, sleeps =>
    if cancel cp then (PollResult.scanStopped, sleeps)
    else
      match statuses with
      | [] => (PollResult.noResponse, sleeps)
      | s :: rest =>
        if s ≠ "Pending" then (PollResult.ok s, sleeps)
        else if cancel (cp + 1) then (PollResult.scanStopped, sleeps)
        else if timer + interval > T then (PollResult.jobTimeout, sleeps + 1)
        else pollLoop cancel interval T rest (cp + 2) (timer + interval) (sleeps + 1)

/-- `pollScanJobStatus`: run the poll loop from the initial state
(`timer = 0`, no sleeps yet, first checkpoint index 0). -/
def pollScanJobStatus (cancel : Nat → Bool) (interval T : Nat)
    (statuses : List String) : PollResult × Nat :=
  pollLoop cancel interval T statuses 0 0 0

/-- A cancellation flag that becomes true at checkpoint 2, i.e. during
the first sleep (after the pre-sleep check of iteration 0, before the
top-of-loop check of iteration 1). -/
def cancelDuringFirstSleep : Nat → Bool := fun k => decide (2 ≤ k)

end SecurityScan

namespace SecurityScan

theorem pollLoop_nil (cancel : Nat → Bool) (interval T cp timer sleeps : Nat) :
    pollLoop cancel interval T [] cp timer sleeps =
      if cancel cp then (PollResult.scanStopped, sleeps)
      else (PollResult.noResponse, sleeps) := by
  rw [pollLoop]

theorem pollLoop_cons (cancel : Nat → Bool) (interval T cp timer sleeps : Nat)
    (s : String) (rest : List String) :
    pollLoop cancel interval T (s :: rest) cp timer sleeps =
      if cancel cp then (PollResult.scanStopped, sleeps)
      else if s ≠ "Pending" then (PollResult.ok s, sleeps)
      else if cancel (cp + 1) then (PollResult.scanStopped, sleeps)
      else if timer + interval > T then (PollResult.jobTimeout, sleeps + 1)
      else pollLoop cancel interval T rest (cp + 2) (timer + interval) (sleeps + 1) := by
  rw [pollLoop]

/-- If the cancellation flag is true at checkpoint `cp + 2 * m`, the
first `m` responses are all `Pending`, and none of the first `m` sleeps
pushes the timer past the timeout, then the loop throws
`CodeScanStoppedError` (possibly at an even earlier checkpoint). -/
theorem pollLoop_cancel_stops (cancel : Nat → Bool) (interval T : Nat) :
    ∀ (m : Nat) (statuses : List String) (cp timer sleeps : Nat),
      cancel (cp + 2 * m) = true →
      (∀ j, j < m → statuses.get? j = some "Pending") →
      (∀ j, j < m → timer + (j + 1) * interval ≤ T) →
      (pollLoop cancel interval T statuses cp timer sleeps).1 =
        PollResult.scanStopped := by
  intro m
  induction m with
  | zero =>
    intro statuses cp timer sleeps hc _ _
    simp only [Nat.mul_zero, Nat.add_zero] at hc
    rw [pollLoop.eq_def]
    simp [hc]
  | succ m ih =>
    intro statuses cp timer sleeps hc hp ht
    by_cases hc0 : cancel cp
    · rw [pollLoop.eq_def]; simp [hc0]
    · have h0 : statuses.get? 0 = some "Pending" := hp 0 (Nat.succ_pos m)
      cases statuses with
      | nil => simp at h0
      | cons s rest =>
        simp only [List.get?] at h0
        have hs : s = "Pending" := by injection h0
        subst hs
        rw [pollLoop_cons, if_neg hc0, if_neg (by simp)]
        by_cases hc1 : cancel (cp + 1)
        · rw [if_pos hc1]
        · have hT0 : timer + interval ≤ T := by
            have := ht 0 (Nat.succ_pos m)
            simpa using this
          have hnot : ¬ (timer + interval > T) := by omega
          rw [if_neg hc1, if_neg hnot]
          exact ih rest (cp + 2) (timer + interval) (sleeps + 1)
            (by rw [show cp + 2 + 2 * m = cp + 2 * (m + 1) from by ring]; exact hc)
            (fun j hj => by simpa using hp (j + 1) (Nat.succ_lt_succ hj))
            (fun j hj =>
              calc timer + interval + (j + 1) * interval
                  = timer + (j + 1 + 1) * interval := by ring
                _ ≤ T := ht (j + 1) (Nat.succ_lt_succ hj))

/-- Auxiliary invariant for normal returns of the poll loop: if the loop
returns `ok s` with final sleep count `n`, then `s` is the response at
index `n - sleeps` of the remaining response list, it differs from
`"Pending"`, and every earlier remaining response was `"Pending"`. -/
theorem pollLoop_ok_first (cancel : Nat → Bool) (interval T : Nat) :
    ∀ (statuses : List String) (cp timer sleeps : Nat) (s : String) (n : Nat),
      pollLoop cancel interval T statuses cp timer sleeps = (PollResult.ok s, n) →
      sleeps ≤ n ∧ s ≠ "Pending" ∧ statuses.get? (n - sleeps) = some s ∧
        ∀ j, j < n - sleeps → statuses.get? j = some "Pending" := by
  intro statuses
  induction statuses with
  | nil =>
    intro cp timer sleeps s n h
    rw [pollLoop_nil] at h
    by_cases hc : cancel cp <;> simp [hc] at h
  | cons s0 rest ih =>
    intro cp timer sleeps s n h
    rw [pollLoop_cons] at h
    by_cases hc0 : cancel cp
    · simp [hc0] at h
    · rw [if_neg hc0] at h
      by_cases hs0 : s0 ≠ "Pending"
      · rw [if_pos hs0] at h
        have h1 : s0 = s := by injection h with ha hb; injection ha
        have h2 : sleeps = n := by injection h
        subst h1; subst h2
        refine ⟨Nat.le_refl _, hs0, ?_, ?_⟩
        · simp
        · intro j hj; omega
      · rw [if_neg hs0] at h
        have hs0eq : s0 = "Pending" := by
          by_contra hne; exact hs0 hne
        by_cases hc1 : cancel (cp + 1)
        · simp [hc1] at h
        · rw [if_neg hc1] at h
          by_cases hT : timer + interval > T
          · simp [hT] at h
          · rw [if_neg hT] at h
            obtain ⟨hle, hsp, hget, hall⟩ :=
              ih (cp + 2) (timer + interval) (sleeps + 1) s n h
            refine ⟨by omega, hsp, ?_, ?_⟩
            · have hk : n - sleeps = (n - (sleeps + 1)) + 1 := by omega
              rw [hk]
              simpa using hget
            · intro j hj
              cases j with
              | zero => simp [hs0eq]
              | succ k =>
                have hk : k < n - (sleeps + 1) := by omega
                simpa using hall k hk

/-- C10: whenever `pollScanJobStatus` returns a status normally, that
status differs from `"Pending"` and is exactly the first non-Pending
response reported by the service (the sleep count `n` is its index, and
every earlier response was `"Pending"`). -/
theorem pollScanJobStatus_ok_first_nonPending (cancel : Nat → Bool)
    (interval T : Nat) (statuses : List String) (s : String) (n : Nat)
    (h : pollScanJobStatus cancel interval T statuses = (PollResult.ok s, n)) :
    s ≠ "Pending" ∧ statuses.get? n = some s ∧
      ∀ j, j < n → statuses.get? j = some "Pending" := by
  obtain ⟨_, hsp, hget, hall⟩ :=
    pollLoop_ok_first cancel interval T statuses 0 0 0 s n h
  simp only [Nat.sub_zero] at hget hall
  exact ⟨hsp, hget, hall⟩

/-- Witness for C10 on the concrete run
`[Pending, Failed]` with no cancellation. -/
theorem pollScanJobStatus_ok_first_nonPending_witness :
    ("Failed" : String) ≠ "Pending" ∧
      (["Pending", "Failed"] : List String).get? 1 = some "Failed" ∧
      ∀ j, j < 1 → (["Pending", "Failed"] : List String).get? j = some "Pending" :=
  pollScanJobStatus_ok_first_nonPending (fun _ => false) 1 10
    ["Pending", "Failed"] "Failed" 1 (by decide)

/-- C2: with response sequence `[Pending, Pending, Completed]`, no
cancellation, and a timeout budget admitting two poll intervals (as the
configured constants do), the loop sleeps exactly twice and returns
`"Completed"`. -/
theorem pollScanJobStatus_two_pending_completed (interval T : Nat)
    (h : 2 * interval ≤ T) :
    pollScanJobStatus (fun _ => false) interval T
        ["Pending", "Pending", "Completed"] =
      (PollResult.ok "Completed", 2) := by
  have h1 : ¬ (0 + interval > T) := by omega
  have h2 : ¬ (0 + interval + interval > T) := by omega
  rw [pollScanJobStatus, pollLoop_cons, if_neg (by simp), if_neg (by simp),
    if_neg (by simp), if_neg h1, pollLoop_cons, if_neg (by simp),
    if_neg (by simp), if_neg (by simp), if_neg h2, pollLoop_cons,
    if_neg (by simp), if_pos (by simp)]

/-- Witness for C2 at the concrete interval/timeout pair 5/120. -/
theorem pollScanJobStatus_two_pending_completed_witness :
    pollScanJobStatus (fun _ => false) 5 120
        ["Pending", "Pending", "Completed"] =
      (PollResult.ok "Completed", 2) :=
  pollScanJobStatus_two_pending_completed 5 120 (by omega)

/-- Counterexample for C1 as stated: the cancellation flag becomes true
at checkpoint 2 — i.e. during the first sleep, before any non-Pending
status is ever observed (all responses are `"Pending"`) — yet with the
timer already past the timeout threshold the loop raises the timeout
error, not the scan-stopped error, because the post-sleep timeout check
precedes the next cancellation checkpoint. -/
theorem pollScanJobStatus_late_cancel_hits_timeout :
    cancelDuringFirstSleep 0 = false ∧ cancelDuringFirstSleep 1 = false ∧
      cancelDuringFirstSleep 2 = true ∧ cancelDuringFirstSleep 3 = true ∧
      pollScanJobStatus cancelDuringFirstSleep 1 0
          ["Pending", "Pending", "Pending"] =
        (PollResult.jobTimeout, 1) := by decide

/-- C1 (amended): if the cancellation flag is true by checkpoint `2 * m`,
the first `m` responses are all `Pending`, and the accumulated time has
not exceeded the timeout threshold when the flag is observed (no earlier
sleep overruns the budget), then the poller raises the scan-stopped error
and never the timeout error, regardless of elapsed time. -/
theorem pollScanJobStatus_cancelled_stops (cancel : Nat → Bool)
    (interval T m : Nat) (statuses : List String)
    (hc : cancel (2 * m) = true)
    (hp : ∀ j, j < m → statuses.get? j = some "Pending")
    (ht : ∀ j, j < m → (j + 1) * interval ≤ T) :
    (pollScanJobStatus cancel interval T statuses).1 =
      PollResult.scanStopped :=
  pollLoop_cancel_stops cancel interval T m statuses 0 0 0
    (by simpa using hc) hp (fun j hj => by simpa using ht j hj)

/-- Witness for the amended C1: cancellation set during the first sleep,
and the timer still within budget, yields the scan-stopped outcome. -/
theorem pollScanJobStatus_cancelled_stops_witness :
    (pollScanJobStatus cancelDuringFirstSleep 1 5 ["Pending", "Pending"]).1 =
      PollResult.scanStopped :=
  pollScanJobStatus_cancelled_stops cancelDuringFirstSleep 1 5 1
    ["Pending", "Pending"] (by decide)
    (fun j hj => by
      have hj0 : j = 0 := by omega
      subst hj0; rfl)
    (fun j hj => by
      have hj0 : j = 0 := by omega
      subst hj0; omega)

/-! ## Result aggregation (`listScanResults` / `mapToAggregatedList`)

`listScanResults` paginates the findings, parses each page (a JSON array
of `RawCodeScanIssue`) and feeds it to `mapToAggregatedList`, which
groups findings by `filePath` in an insertion-ordered map
(`codeScanIssueMap`) and then walks the whole map, emitting an
`AggregatedCodeScanIssue` for every key whose resolved path
(`path.join(projectPath, '..', key)`) exists and is a regular file.

JSON decoding is external (`JSON.parse`); pages enter the model already
decoded as `List RawCodeScanIssue`.  The JavaScript `Map` is modelled as
an association list with `Map` semantics: `set` on a present key updates
the value in place, a new key is appended, and `forEach` iterates in
insertion order.  `path.join` and the `fs` calls are environment
parameters. -/

/-- `description` field of a raw finding. -/
structure IssueDescription where
  text : String
deriving DecidableEq, Repr

/-- `remediation` field of a raw finding. -/
structure Remediation where
  recommendation : String
  suggestedFixes : List String
deriving DecidableEq, Repr

/-- `RawCodeScanIssue`: one finding as decoded from a findings page. -/
structure RawCodeScanIssue where
  filePath : String
  startLine : Int
  endLine : Int
  title : String
  description : IssueDescription
  detectorId : String
  detectorName : String
  findingId : String
  ruleId : String
  relatedVulnerabilities : List String
  severity : String
  remediation : Remediation
deriving DecidableEq, Repr

/-- One normalized issue inside an `AggregatedCodeScanIssue`, as built
by the object literal in `mapToAggregatedList`. -/
structure CodeScanIssue where
  startLine : Int
  endLine : Int
  comment : String
  title : String
  description : IssueDescription
  detectorId : String
  detectorName : String
  findingId : String
  ruleId : String
  relatedVulnerabilities : List String
  severity : String
  recommendation : String
  suggestedFixes : List String
deriving DecidableEq, Repr

/-- `AggregatedCodeScanIssue`: a resolved file path with its issues. -/
structure AggregatedCodeScanIssue where
  filePath : String
  issues : List CodeScanIssue
deriving DecidableEq, Repr

/-- Environment for the aggregator: `joinParent p k` models
`path.join(p, '..', k)`; `existsSync` and `isFileSync` model
`fs.existsSync` and `fs.statSync(·).isFile()`. -/
structure FsEnv where
  joinParent : String → String → String
  existsSync : String → Bool
  isFileSync : String → Bool

/-- The issue-map type: insertion-ordered association list standing for
the JavaScript `Map<string, RawCodeScanIssue[]>`. -/
abbrev IssueMap : Type := List (String × List RawCodeScanIssue)

/-- `Map.prototype.has`. -/
def mapHas (m : IssueMap) (k : String) : Bool :=
  (List.any m fun p => p.1 = k)

/-- `Map.prototype.get` (`undefined` becomes `none`). -/
def mapGet (m : IssueMap) (k : String) : Option (List RawCodeScanIssue) :=
  (List.find? (fun p => p.1 = k) m).map Prod.snd

/-- `Map.prototype.set`: update in place if the key is present
(preserving its position), otherwise append the new entry. -/
def mapSet (m : IssueMap) (k : String) (v : List RawCodeScanIssue) : IssueMap :=
  if mapHas m k then
    List.map (fun p => if p.1 = k then (k, v) else p) m
  else
    m ++ [(k, v)]

/-- The body of the first `forEach` of `mapToAggregatedList`: insert one
finding into the grouping map, translated branch by branch (including
the defensive `undefined` check on `get`). -/
def insertIssue (m : IssueMap) (issue : RawCodeScanIssue) : IssueMap :=
  if mapHas m issue.filePath then
    match mapGet m issue.filePath with
    | none => mapSet m issue.filePath [issue]
    | some list => mapSet m issue.filePath (list ++ [issue])
  else
    mapSet m issue.filePath [issue]

/-- The object literal mapping a raw finding to a normalized issue:
start line decremented with a floor at 0, end line passed through,
comment synthesized from trimmed title and description. -/
def toCodeScanIssue (issue : RawCodeScanIssue) : CodeScanIssue :=
  { startLine := if issue.startLine - 1 ≥ 0 then issue.startLine - 1 else 0
    endLine := issue.endLine
    comment := issue.title.trim ++ ": " ++ issue.description.text.trim
    title := issue.title
    description := issue.description
    detectorId := issue.detectorId
    detectorName := issue.detectorName
    findingId := issue.findingId
    ruleId := issue.ruleId
    relatedVulnerabilities := issue.relatedVulnerabilities
    severity := issue.severity
    recommendation := issue.remediation.recommendation
    suggestedFixes := issue.remediation.suggestedFixes }

/-- The second `forEach` of `mapToAggregatedList`: walk the whole map in
insertion order and push an `AggregatedCodeScanIssue` for every key
whose resolved path exists and is a regular file. -/
def emitAggregated (env : FsEnv) (projectPath : String) (m : IssueMap)
    (acc : List AggregatedCodeScanIssue) : List AggregatedCodeScanIssue :=
  List.foldl
    (fun acc2 p =>
      let filePath := env.joinParent projectPath p.1
      if env.existsSync filePath && env.isFileSync filePath then
        acc2 ++ [{ filePath := filePath, issues := List.map toCodeScanIssue p.2 }]
      else acc2)
    acc m

/-- `mapToAggregatedList`: group the page of findings into the shared
map, then re-emit an aggregated entry for every key of the whole
accumulated map.  Returns the updated map and aggregated list (the
TypeScript mutates both arguments in place). -/
def mapToAggregatedList (env : FsEnv) (m : IssueMap)
    (aggList : List AggregatedCodeScanIssue) (page : List RawCodeScanIssue)
    (projectPath : String) : IssueMap × List AggregatedCodeScanIssue :=
  let m2 := List.foldl insertIssue m page
  (m2, emitAggregated env projectPath m2 aggList)

/-- `listScanResults`: fold `mapToAggregatedList` over the decoded
findings pages, starting from an empty map and an empty aggregated
list, and return the aggregated list. -/
def listScanResults (env : FsEnv) (pages : List (List RawCodeScanIssue))
    (projectPath : String) : List AggregatedCodeScanIssue :=
  (List.foldl
    (fun st page => mapToAggregatedList env st.1 st.2 page projectPath)
    (([] : IssueMap), ([] : List AggregatedCodeScanIssue)) pages).2

/-- A sample raw finding, for concrete instantiations. -/
def mkIssue (fp : String) (line : Int) : RawCodeScanIssue :=
  { filePath := fp
    startLine := line
    endLine := line + 1
    title := "Hardcoded credentials"
    description := { text := "A credential is hardcoded." }
    detectorId := "detector-1"
    detectorName := "credentials"
    findingId := "finding-1"
    ruleId := "rule-1"
    relatedVulnerabilities := ["CWE-798"]
    severity := "High"
    remediation := { recommendation := "Remove the credential.", suggestedFixes := [] } }

/-- A filesystem environment in which every resolved path exists and is
a regular file, and joining is plain concatenation. -/
def allFilesEnv : FsEnv :=
  { joinParent := fun p k => p ++ "/" ++ k
    existsSync := fun _ => true
    isFileSync := fun _ => true }

/-- C3: a single page with findings for `a.py` (twice, interleaved) and
`b.py` (once), both of whose resolved paths are existing regular files,
aggregates to exactly one `AggregatedCodeScanIssue` per distinct file,
each holding that file's findings in page order. -/
theorem listScanResults_single_page_groups (env : FsEnv) (pp : String)
    (i1 i2 i3 : RawCodeScanIssue)
    (h1 : i1.filePath = "a.py") (h2 : i2.filePath = "a.py")
    (h3 : i3.filePath = "b.py")
    (hea : env.existsSync (env.joinParent pp "a.py") = true)
    (hfa : env.isFileSync (env.joinParent pp "a.py") = true)
    (heb : env.existsSync (env.joinParent pp "b.py") = true)
    (hfb : env.isFileSync (env.joinParent pp "b.py") = true) :
    listScanResults env [[i1, i3, i2]] pp =
      [{ filePath := env.joinParent pp "a.py",
         issues := [toCodeScanIssue i1, toCodeScanIssue i2] },
       { filePath := env.joinParent pp "b.py",
         issues := [toCodeScanIssue i3] }] := by
  simp [listScanResults, mapToAggregatedList, emitAggregated, insertIssue,
    mapHas, mapGet, mapSet, h1, h2, h3, hea, hfa, heb, hfb]

/-- Witness for C3 with concrete findings and the all-files
environment. -/
theorem listScanResults_single_page_groups_witness :
    listScanResults allFilesEnv
        [[mkIssue "a.py" 3, mkIssue "b.py" 7, mkIssue "a.py" 9]] "proj" =
      [{ filePath := allFilesEnv.joinParent "proj" "a.py",
         issues := [toCodeScanIssue (mkIssue "a.py" 3),
                    toCodeScanIssue (mkIssue "a.py" 9)] },
       { filePath := allFilesEnv.joinParent "proj" "b.py",
         issues := [toCodeScanIssue (mkIssue "b.py" 7)] }] :=
  listScanResults_single_page_groups allFilesEnv "proj"
    (mkIssue "a.py" 3) (mkIssue "a.py" 9) (mkIssue "b.py" 7)
    rfl rfl rfl rfl rfl rfl rfl

/-- C4: with two pages, the grouping map accumulated from the first page
is re-traversed and re-emitted while processing the second page, so the
file of the first page appears twice in the returned aggregated list
(once per page processed). -/
theorem listScanResults_reemits_earlier_pages (env : FsEnv) (pp : String)
    (iA iB : RawCodeScanIssue)
    (hA : iA.filePath = "a.py") (hB : iB.filePath = "b.py")
    (hea : env.existsSync (env.joinParent pp "a.py") = true)
    (hfa : env.isFileSync (env.joinParent pp "a.py") = true)
    (heb : env.existsSync (env.joinParent pp "b.py") = true)
    (hfb : env.isFileSync (env.joinParent pp "b.py") = true) :
    listScanResults env [[iA], [iB]] pp =
      [{ filePath := env.joinParent pp "a.py",
         issues := [toCodeScanIssue iA] },
       { filePath := env.joinParent pp "a.py",
         issues := [toCodeScanIssue iA] },
       { filePath := env.joinParent pp "b.py",
         issues := [toCodeScanIssue iB] }] := by
  simp [listScanResults, mapToAggregatedList, emitAggregated, insertIssue,
    mapHas, mapGet, mapSet, hA, hB, hea, hfa, heb, hfb]

/-- Witness for C4 with concrete findings and the all-files
environment. -/
theorem listScanResults_reemits_earlier_pages_witness :
    listScanResults allFilesEnv
        [[mkIssue "a.py" 3], [mkIssue "b.py" 7]] "proj" =
      [{ filePath := allFilesEnv.joinParent "proj" "a.py",
         issues := [toCodeScanIssue (mkIssue "a.py" 3)] },
       { filePath := allFilesEnv.joinParent "proj" "a.py",
         issues := [toCodeScanIssue (mkIssue "a.py" 3)] },
       { filePath := allFilesEnv.joinParent "proj" "b.py",
         issues := [toCodeScanIssue (mkIssue "b.py" 7)] }] :=
  listScanResults_reemits_earlier_pages allFilesEnv "proj"
    (mkIssue "a.py" 3) (mkIssue "b.py" 7) rfl rfl rfl rfl rfl rfl

/-- C5: normalization of one finding: a positive declared start line is
decremented by one, a zero declared start line stays zero (never
negative), and the end line passes through unchanged. -/
theorem toCodeScanIssue_normalizes_lines (issue : RawCodeScanIssue) :
    (0 < issue.startLine →
      (toCodeScanIssue issue).startLine = issue.startLine - 1) ∧
    (issue.startLine = 0 → (toCodeScanIssue issue).startLine = 0) ∧
    (toCodeScanIssue issue).endLine = issue.endLine := by
  refine ⟨fun h => ?_, fun h => ?_, rfl⟩
  · simp only [toCodeScanIssue]
    rw [if_pos (by omega)]
  · simp only [toCodeScanIssue]
    rw [if_neg (by omega)]

/-- Witness for C5 at declared start lines 5 and 0. -/
theorem toCodeScanIssue_normalizes_lines_witness :
    (toCodeScanIssue (mkIssue "a.py" 5)).startLine = 5 - 1 ∧
      (toCodeScanIssue (mkIssue "a.py" 0)).startLine = 0 ∧
      (toCodeScanIssue (mkIssue "a.py" 5)).endLine = (mkIssue "a.py" 5).endLine :=
  ⟨(toCodeScanIssue_normalizes_lines (mkIssue "a.py" 5)).1 (by decide),
   (toCodeScanIssue_normalizes_lines (mkIssue "a.py" 0)).2.1 rfl,
   (toCodeScanIssue_normalizes_lines (mkIssue "a.py" 5)).2.2⟩

/-- Every aggregated entry produced by the emission pass either was in
the accumulator already or has a file path the environment reports as an
existing regular file. -/
theorem emitAggregated_mem (env : FsEnv) (pp : String) :
    ∀ (m : IssueMap) (acc : List AggregatedCodeScanIssue)
      (agg : AggregatedCodeScanIssue),
      agg ∈ emitAggregated env pp m acc →
      agg ∈ acc ∨
        (env.existsSync agg.filePath = true ∧
          env.isFileSync agg.filePath = true) := by
  intro m
  induction m with
  | nil => intro acc agg h; exact Or.inl h
  | cons p rest ih =>
    intro acc agg h
    simp only [emitAggregated, List.foldl_cons] at h
    by_cases hc : env.existsSync (env.joinParent pp p.1) &&
        env.isFileSync (env.joinParent pp p.1)
    · rw [if_pos hc] at h
      rcases ih _ agg h with hmem | hfile
      · rcases List.mem_append.mp hmem with hacc | hnew
        · exact Or.inl hacc
        · right
          have heq : agg =
              { filePath := env.joinParent pp p.1,
                issues := List.map toCodeScanIssue p.2 } := by
            simpa using hnew
          rw [heq]
          exact ⟨(Bool.and_eq_true _ _ |>.mp hc).1,
            (Bool.and_eq_true _ _ |>.mp hc).2⟩
      · exact Or.inr hfile
    · rw [if_neg hc] at h
      exact ih _ agg h

/-- C6: an `AggregatedCodeScanIssue` is emitted by `mapToAggregatedList`
only if its resolved path exists on disk and is a regular file at
aggregation time; a grouped path failing the check contributes nothing
(and, the function being total, no error is raised). -/
theorem mapToAggregatedList_only_existing_files (env : FsEnv)
    (m : IssueMap) (aggList : List AggregatedCodeScanIssue)
    (page : List RawCodeScanIssue) (pp : String)
    (agg : AggregatedCodeScanIssue)
    (h : agg ∈ (mapToAggregatedList env m aggList page pp).2) :
    agg ∈ aggList ∨
      (env.existsSync agg.filePath = true ∧
        env.isFileSync agg.filePath = true) :=
  emitAggregated_mem env pp _ aggList agg h

/-- Witness for C6 on a concrete aggregation run. -/
theorem mapToAggregatedList_only_existing_files_witness :
    { filePath := "proj/a.py",
      issues := [toCodeScanIssue (mkIssue "a.py" 3)] } ∈
        ([] : List AggregatedCodeScanIssue) ∨
      (allFilesEnv.existsSync "proj/a.py" = true ∧
        allFilesEnv.isFileSync "proj/a.py" = true) :=
  mapToAggregatedList_only_existing_files allFilesEnv [] []
    [mkIssue "a.py" 3] "proj"
    { filePath := "proj/a.py", issues := [toCodeScanIssue (mkIssue "a.py" 3)] }
    (by simp [mapToAggregatedList, emitAggregated, insertIssue, mapHas,
      mapGet, mapSet, allFilesEnv, mkIssue])

/-! ## Upload preparation (`getPresignedUrlAndUpload`, `uploadArtifactToS3`)

`getPresignedUrlAndUpload` rejects an empty archive path up front,
otherwise computes the MD5 of the archive, requests a presigned upload
URL (`client.createUploadUrl`), uploads the archive, and returns the
artifact map `{ SourceCode: uploadId }`.  `uploadArtifactToS3` performs
a single PUT through the shared request helper and, on any rejection,
throws a fixed user-facing guidance message.

Network and crypto are environment parameters; each function also
returns the list of outbound requests it issued, so that "no network
call attempted" and "no retry" are expressible. -/

/-- `CreateUploadUrlRequest` as built by `getPresignedUrlAndUpload`. -/
structure CreateUploadUrlRequest where
  contentMd5 : String
  artifactType : String
deriving DecidableEq, Repr

/-- `CreateUploadUrlResponse` fields used by the handler. -/
structure CreateUploadUrlResponse where
  uploadId : String
  uploadUrl : String
  requestHeaders : List (String × String)
deriving DecidableEq, Repr

/-- `ArtifactMap` as returned by `getPresignedUrlAndUpload`. -/
structure ArtifactMap where
  SourceCode : String
deriving DecidableEq, Repr

/-- `Truncation`, consumed here only through its archive path. -/
structure Truncation where
  zipFilePath : String
deriving DecidableEq, Repr

/-- Modelled from the spec: the shared request helper
(`src/common/request`, not among the provided sources) resolves with a
status and status text on success and rejects on any failure — a network
error or a non-success response from the storage endpoint. -/
inductive FetchOutcome where
  | success (status : Nat) (statusText : String)
  | failure (message : String)
deriving DecidableEq, Repr

/-- One outbound network request of the upload path. -/
inductive NetRequest where
  | createUploadUrlCall (req : CreateUploadUrlRequest)
  | s3PutCall (fileName : String) (uploadUrl : String)
deriving DecidableEq, Repr

/-- Environment for the upload path: `getMd5` models the MD5/base64
digest of the file bytes (`crypto` + `readFileSync`), `createUploadUrl`
the service call, `fetchPut` the PUT through the request helper. -/
structure UploadEnv where
  getMd5 : String → String
  createUploadUrl : CreateUploadUrlRequest → CreateUploadUrlResponse
  fetchPut : String → CreateUploadUrlResponse → FetchOutcome

/-- The message of the error thrown when the archive path is empty
(`Truncation failure: can\x27t find valid source zip.`). -/
def truncationFailureMessage : String :=
  "Truncation failure: can\x27t find valid source zip."

/-- The fixed user-facing guidance message thrown by
`uploadArtifactToS3` on any upload failure. -/
def uploadFailedMessage : String :=
  "Amazon Q is unable to upload workspace artifacts to Amazon S3 for security scans. For more information, see the [Amazon Q documentation](https://docs.aws.amazon.com/amazonq/latest/qdeveloper-ug/security_iam_manage-access-with-policies.html) or contact your network or organization administrator."

/-- `uploadArtifactToS3`: one PUT; a rejection is caught and replaced by
the fixed guidance message.  The second component is the list of network
requests issued. -/
def uploadArtifactToS3 (env : UploadEnv) (fileName : String)
    (resp : CreateUploadUrlResponse) : Except String Unit × List NetRequest :=
  match env.fetchPut fileName resp with
  | FetchOutcome.success _ _ =>
    (Except.ok (), [NetRequest.s3PutCall fileName resp.uploadUrl])
  | FetchOutcome.failure _ =>
    (Except.error uploadFailedMessage,
      [NetRequest.s3PutCall fileName resp.uploadUrl])

/-- `getPresignedUrlAndUpload`, with its network-request trace. -/
def getPresignedUrlAndUpload (env : UploadEnv) (truncation : Truncation) :
    Except String ArtifactMap × List NetRequest :=
  if truncation.zipFilePath = "" then
    (Except.error truncationFailureMessage, [])
  else
    let srcReq : CreateUploadUrlRequest :=
      { contentMd5 := env.getMd5 truncation.zipFilePath
        artifactType := "SourceCode" }
    let srcResp := env.createUploadUrl srcReq
    match uploadArtifactToS3 env truncation.zipFilePath srcResp with
    | (Except.ok _, reqs) =>
      (Except.ok { SourceCode := srcResp.uploadId },
        NetRequest.createUploadUrlCall srcReq :: reqs)
    | (Except.error e, reqs) =>
      (Except.error e, NetRequest.createUploadUrlCall srcReq :: reqs)

/-- C7: an empty archive path makes `getPresignedUrlAndUpload` fail
immediately with the precondition-failure error, with an empty network
trace — neither the upload-URL request nor the PUT is attempted. -/
theorem getPresignedUrlAndUpload_empty_path (env : UploadEnv)
    (truncation : Truncation) (h : truncation.zipFilePath = "") :
    getPresignedUrlAndUpload env truncation =
      (Except.error truncationFailureMessage, []) := by
  rw [getPresignedUrlAndUpload, if_pos h]

/-- Witness for C7 with a concrete environment and empty path. -/
theorem getPresignedUrlAndUpload_empty_path_witness :
    getPresignedUrlAndUpload
        { getMd5 := fun _ => "md5"
          createUploadUrl := fun _ => { uploadId := "u", uploadUrl := "https://s3", requestHeaders := [] }
          fetchPut := fun _ _ => FetchOutcome.success 200 "OK" }
        { zipFilePath := "" } =
      (Except.error truncationFailureMessage, []) :=
  getPresignedUrlAndUpload_empty_path _ _ rfl

/-- C8: whenever the PUT rejects (network error or non-success
response), `uploadArtifactToS3` fails with exactly the fixed guidance
message — not the underlying error message `e` — and its trace shows a
single PUT attempt, i.e. no retry. -/
theorem uploadArtifactToS3_failure_fixed_message (env : UploadEnv)
    (fileName : String) (resp : CreateUploadUrlResponse) (e : String)
    (h : env.fetchPut fileName resp = FetchOutcome.failure e) :
    uploadArtifactToS3 env fileName resp =
      (Except.error uploadFailedMessage,
        [NetRequest.s3PutCall fileName resp.uploadUrl]) := by
  rw [uploadArtifactToS3, h]

/-- Witness for C8: a concrete rejected PUT whose raw message differs
from the surfaced guidance text. -/
theorem uploadArtifactToS3_failure_fixed_message_witness :
    uploadArtifactToS3
        { getMd5 := fun _ => "md5"
          createUploadUrl := fun _ => { uploadId := "u", uploadUrl := "https://s3", requestHeaders := [] }
          fetchPut := fun _ _ => FetchOutcome.failure "403 Forbidden" }
        "src.zip" { uploadId := "u", uploadUrl := "https://s3", requestHeaders := [] } =
      (Except.error uploadFailedMessage, [NetRequest.s3PutCall "src.zip" "https://s3"]) :=
  uploadArtifactToS3_failure_fixed_message _ "src.zip" _ "403 Forbidden" rfl

end SecurityScan

namespace Weaverbird

/-! ## User-facing error messages (`src/weaverbird/errors.ts`)

```
const denyListedErrors: string[] = ['Deserialization error']
export function createUserFacingErrorMessage(message: string) {
    if (denyListedErrors.some(err => message.includes(err))) {
        return featureName + ' API request failed'
    }
    return message
}
```
-/

/-- Modelled from the spec: `featureName` comes from the weaverbird
constants module, which is not among the provided sources; the spec
calls the replacement a "generic feature-branded message". -/
def featureName : String := "Amazon Q"

/-- JavaScript `String.prototype.includes`: substring containment. -/
def jsIncludes (s sub : String) : Bool :=
  decide (sub.toList <:+: s.toList)

/-- The deny list of known-noisy backend messages. -/
def denyListedErrors : List String := ["Deserialization error"]

/-- The generic feature-branded replacement message. -/
def genericApiFailureMessage : String := featureName ++ " API request failed"

/-- `createUserFacingErrorMessage`. -/
def createUserFacingErrorMessage (message : String) : String :=
  if List.any denyListedErrors (fun err => jsIncludes message err) then
    genericApiFailureMessage
  else
    message

/-- Counterexample for C9 as stated ("returns the generic message
exactly when the input contains a deny-listed substring"): the generic
message itself contains no deny-listed substring, yet the function
returns it (verbatim), so the "exactly when" equivalence fails. -/
theorem createUserFacingErrorMessage_not_iff :
    createUserFacingErrorMessage genericApiFailureMessage =
        genericApiFailureMessage ∧
      List.any denyListedErrors
          (fun err => jsIncludes genericApiFailureMessage err) = false := by
  constructor
  · rw [createUserFacingErrorMessage, if_neg (by decide)]
  · decide

/-- C9 (amended): the transformation returns the generic feature-branded
message whenever the input contains a deny-listed substring, and
otherwise returns the input verbatim (so a generic-looking output does
not imply a deny-listed input). -/
theorem createUserFacingErrorMessage_cases (message : String) :
    (List.any denyListedErrors (fun err => jsIncludes message err) = true →
      createUserFacingErrorMessage message = genericApiFailureMessage) ∧
    (List.any denyListedErrors (fun err => jsIncludes message err) = false →
      createUserFacingErrorMessage message = message) := by
  constructor
  · intro h
    rw [createUserFacingErrorMessage, if_pos h]
  · intro h
    rw [createUserFacingErrorMessage, if_neg (by rw [h]; exact Bool.false_ne_true)]

/-- Witness for the amended C9 on both branches. -/
theorem createUserFacingErrorMessage_cases_witness :
    createUserFacingErrorMessage "Encountered Deserialization error in backend" =
        genericApiFailureMessage ∧
      createUserFacingErrorMessage "Some other failure" = "Some other failure" :=
  ⟨(createUserFacingErrorMessage_cases
      "Encountered Deserialization error in backend").1 (by decide),
   (createUserFacingErrorMessage_cases "Some other failure").2 (by decide)⟩

end Weaverbird
